import Mathlib

/-!
Shallow embedding of the task-progress subsystem of the `vs-code-ai-helper`
extension (files `src/types/taskProgress.ts`, `src/utils/taskProgressUtils.ts`,
`src/commands/startNewTask.ts`, `src/commands/resumeTask.ts`).

Modelling conventions:
* Timestamps: `new Date().toISOString()` produces ISO-8601 strings whose
  lexicographic order agrees with the underlying epoch instant; we model a
  timestamp by its epoch value (`Int`), so `toISOString` and
  `new Date(s).getTime()` are the identity in the model.
* The editor/file-system collaborators (`vscode.workspace.fs`, quick-pick
  prompts, clipboard, text documents) are modelled by explicit state and
  traces: a task folder is an association list of file name to content,
  prompts consume a list of user answers (`none` = the user dismissed the
  prompt), and information messages / prompt titles are accumulated in lists.
* A throwing operation is modelled by an `Option`: `none` where the
  TypeScript operation would throw (e.g. `fs.readFile` on a missing file,
  `JSON.parse` on unparseable text, `fs.readDirectory` on a missing root).
-/

/-- `STAGE_ORDER` from `src/types/taskProgress.ts`: the canonical order of the
seven workflow stages. -/
def STAGE_ORDER : List String :=
  ["created", "plan", "plan-review", "plan-updated",
   "plan-updated-review", "plan-final", "completed"]

/-- `TASK_PROGRESS_FILENAME` from `src/types/taskProgress.ts`. -/
def TASK_PROGRESS_FILENAME : String := "task-progress.json"

/-- The `TaskProgress` interface from `src/types/taskProgress.ts`.
`currentStage` is kept as a raw `String` because at runtime the value comes
from an unvalidated `JSON.parse` cast and may be any string. -/
structure TaskProgress where
  taskFolder : String
  currentStage : String
  createdAt : Int
  updatedAt : Int
  deriving Repr, DecidableEq

/-- `getStageIndex` from `src/commands/resumeTask.ts` (lines 111-122):
`Array.prototype.indexOf` over the stage list, `-1` when absent. -/
def getStageIndex (stage : String) : Int :=
  match STAGE_ORDER.findIdx? (fun s => s == stage) with
  | some i => (i : Int)
  | none => -1

/-- `createTaskProgress` from `src/utils/taskProgressUtils.ts` (lines 67-78);
`now` models `new Date().toISOString()`. -/
def createTaskProgress (taskFolder : String) (now : Int)
    (stage : String := "created") : TaskProgress :=
  { taskFolder := taskFolder, currentStage := stage,
    createdAt := now, updatedAt := now }

/-- `updateTaskProgressStage` from `src/utils/taskProgressUtils.ts`
(lines 86-95); `now` models `new Date().toISOString()`. -/
def updateTaskProgressStage (progress : TaskProgress) (newStage : String)
    (now : Int) : TaskProgress :=
  { progress with currentStage := newStage, updatedAt := now }

/-- JSON values, as produced by a successful `JSON.parse`. -/
inductive Json where
  | null
  | bool (b : Bool)
  | num (n : Int)
  | str (s : String)
  | arr (elems : List Json)
  | obj (fields : List (String × Json))

/-- JavaScript property access `j.key`: defined only on objects, `none`
(i.e. `undefined`) otherwise.  `JSON.parse` keeps the last duplicate key,
hence the left fold. -/
def Json.getField (j : Json) (key : String) : Option Json :=
  match j with
  | .obj fields =>
      fields.foldl (fun acc kv => if kv.1 == key then some kv.2 else acc) none
  | _ => none

/-- JavaScript truthiness of a parsed JSON value. -/
def Json.truthy : Json → Bool
  | .null => false
  | .bool b => b
  | .num n => n != 0
  | .str s => s != ""
  | .arr _ => true
  | .obj _ => true

/-- The check `progress.currentStage !== "completed"` is false exactly when
the `currentStage` property is the string `"completed"`. -/
def stageIsCompleted (j : Json) : Bool :=
  match j.getField "currentStage" with
  | some (.str s) => s == "completed"
  | _ => false

/-- A parsed value that actually conforms to the `TaskProgress` interface of
`src/types/taskProgress.ts`: an object with a string `taskFolder`, a
`currentStage` drawn from the seven stage names, and two timestamps.
(The code itself never performs this check; it is used to state claims.) -/
def isWellFormedProgress (j : Json) : Bool :=
  match j.getField "taskFolder", j.getField "currentStage",
        j.getField "createdAt", j.getField "updatedAt" with
  | some (.str _), some (.str stage), some (.num _), some (.num _) =>
      STAGE_ORDER.contains stage
  | _, _, _, _ => false

/-- The state of one task folder's `task-progress.json` file as seen through
`fs.readFile` followed by `JSON.parse`:
`unreadable` = `readFile` throws (missing file or I/O error);
`unparseable` = `readFile` succeeds but `JSON.parse` throws;
`parsed j` = the content parses to the JSON value `j`. -/
inductive ReadResult where
  | unreadable
  | unparseable
  | parsed (j : Json)

/-- `readTaskProgress` from `src/utils/taskProgressUtils.ts` (lines 22-38):
`try { read; JSON.parse; return cast } catch { return undefined }`.
Note the cast performs no validation: any successfully parsed value is
returned as-is. -/
def readTaskProgress (file : ReadResult) : Option Json :=
  match file with
  | .unreadable => none
  | .unparseable => none
  | .parsed j => some j

/-- `vscode.FileType` tags returned by `fs.readDirectory`. -/
inductive FileType where
  | file
  | directory
  | symbolicLink
  | unknown
  deriving Repr, DecidableEq

/-- One entry of the meta-resources root directory, together with the read
outcome of its `task-progress.json` (the join-path is determined by the
name, so we attach the read result directly). -/
structure DirEntry where
  name : String
  type : FileType
  record : ReadResult

/-- The `IncompleteTask` interface from `src/utils/taskProgressUtils.ts`
(`folderUri` is `joinPath(root, folderName)` and is determined by the name,
so it is omitted from the model). -/
structure IncompleteTask where
  folderName : String
  progress : Json

/-- Sort key used by `findIncompleteTasks`'s comparator:
`new Date(progress.updatedAt).getTime()` (epoch model; a missing or
non-numeric field gives `NaN`, modelled here as `0`). -/
def updatedAtKey (j : Json) : Int :=
  match j.getField "updatedAt" with
  | some (.num t) => t
  | _ => 0

/-- `findIncompleteTasks` from `src/utils/taskProgressUtils.ts`
(lines 102-137). `entries = none` models `fs.readDirectory` throwing, in
which case the catch block returns the (still empty) accumulator.  The
comparator `(a, b) => getTime(b) - getTime(a)` sorts by `updatedAt`
descending. -/
def findIncompleteTasks (entries : Option (List DirEntry)) :
    List IncompleteTask :=
  match entries with
  | none => []
  | some es =>
      let incompleteTasks := es.filterMap fun e =>
        if e.type = FileType.directory then
          match readTaskProgress e.record with
          | some progress =>
              if progress.truthy && !(stageIsCompleted progress) then
                some { folderName := e.name, progress := progress }
              else none
          | none => none
        else none
      incompleteTasks.mergeSort
        (fun a b => updatedAtKey b.progress ≤ updatedAtKey a.progress)

/-- Strip a leading character sequence: `some rest` when the second list
starts with the first, `none` otherwise. -/
def stripPre : List Char → List Char → Option (List Char)
  | [], rest => some rest
  | _ :: _, [] => none
  | p :: ps, c :: cs => if c = p then stripPre ps cs else none

/-- `parseInt(ds, 10)` on a non-empty all-digit capture (`\d+`). -/
def digitsToNat? (ds : List Char) : Option Nat :=
  if ds ≠ [] ∧ ds.all Char.isDigit then
    some (ds.foldl (fun acc c => acc * 10 + (c.toNat - 48)) 0)
  else none

/-- The regex `^{dateStr}_task_(\d+)$` of `getNextTaskNumber` (for the
date strings produced by `formatDate`, which contain no regex
metacharacters): returns the captured number when the name matches. -/
def matchTaskNumber (dateStr name : String) : Option Nat :=
  match stripPre (dateStr ++ "_task_").data name.data with
  | some rest => digitsToNat? rest
  | none => none

/-- The loop body of `getNextTaskNumber`: replaces `maxTaskNumber` by a
matched task number when it is strictly larger. -/
def taskNumStep (dateStr : String) (maxTaskNumber : Nat)
    (e : String × FileType) : Nat :=
  if e.2 = FileType.directory then
    match matchTaskNumber dateStr e.1 with
    | some taskNum =>
        if taskNum > maxTaskNumber then taskNum else maxTaskNumber
    | none => maxTaskNumber
  else maxTaskNumber

/-- The loop of `getNextTaskNumber`: folds `maxTaskNumber` over the
directory entries. -/
def taskNumFold (dateStr : String) (es : List (String × FileType))
    (acc : Nat) : Nat :=
  es.foldl (taskNumStep dateStr) acc

/-- `getNextTaskNumber` from `src/commands/startNewTask.ts` (lines 20-46):
max of the matched task numbers over directory entries, plus one;
`entries = none` models `fs.readDirectory` throwing, leaving the max at 0. -/
def getNextTaskNumber (entries : Option (List (String × FileType)))
    (dateStr : String) : Nat :=
  (match entries with
   | none => 0
   | some es => taskNumFold dateStr es 0) + 1

/-- Accumulated collaborator state and effect traces for one engine
invocation over a single task folder:
`files` — the artifact files of the task folder (name, content);
`recordWrites` — every `writeTaskProgress` call, in order;
`prompts` — the title of every `showQuickPick` call, in order;
`messages` — every `showInformationMessage`/`showErrorMessage`, in order. -/
structure Run where
  files : List (String × String)
  recordWrites : List TaskProgress
  prompts : List String
  messages : List String
  deriving Repr, DecidableEq

/-- Whole-file read against the task folder: `none` models
`fs.readFile` throwing (missing file). -/
def fsRead (files : List (String × String)) (name : String) : Option String :=
  (files.find? (fun kv => kv.1 == name)).map (fun kv => kv.2)

/-- Whole-file overwrite against the task folder (the collaborator
`vscode.workspace.fs.writeFile`): after the write, reading `name` yields
`content` and every other file is unchanged. -/
def fsWrite (files : List (String × String)) (name content : String) :
    List (String × String) :=
  (name, content) :: files.filter (fun kv => kv.1 != name)

/-- `showQuickPick`: records the prompt title and consumes the next user
answer (`none` = the user dismissed the prompt; an exhausted answer list also
dismisses). -/
def showQuickPick (r : Run) (title : String)
    (answers : List (Option String)) :
    Run × Option String × List (Option String) :=
  match answers with
  | [] => ({ r with prompts := r.prompts ++ [title] }, none, [])
  | a :: rest => ({ r with prompts := r.prompts ++ [title] }, a, rest)

/-- Consume the next clock reading (`new Date()`), defaulting to 0. -/
def takeTime (clock : List Int) : Int × List Int :=
  match clock with
  | [] => (0, [])
  | t :: rest => (t, rest)

/-- `createAndOpenFile` from `src/commands/resumeTask.ts` (lines 141-161),
file-system part: `fs.stat` succeeds iff the file exists; when it exists the
file is opened unchanged, otherwise an empty file is written first. -/
def createAndOpenFile (files : List (String × String)) (name : String) :
    List (String × String) :=
  if (fsRead files name).isSome then files else fsWrite files name ""

/-- `createAndOpenFile` from `src/commands/startNewTask.ts` (lines 115-126),
file-system part: unconditionally writes an empty file (no existence
check), then opens it. -/
def createAndOpenFileNew (files : List (String × String)) (name : String) :
    List (String × String) :=
  fsWrite files name ""

/-- `createAndOpenFile` lifted to a `Run` (both variants also copy the
relative path to the clipboard and show a message). -/
def createAndOpenFileR (r : Run) (name : String) : Run :=
  { r with files := createAndOpenFile r.files name,
           messages := r.messages ++ ["Copied to clipboard: " ++ name] }

/-- The `startNewTask` variant of `createAndOpenFile` lifted to a `Run`. -/
def createAndOpenFileNewR (r : Run) (name : String) : Run :=
  { r with files := createAndOpenFileNew r.files name,
           messages := r.messages ++ ["Copied to clipboard: " ++ name] }

/-- `copyFile` (defined identically in both command files): reads the
source (throwing, hence `none`, when it is missing) and overwrites the
destination. -/
def copyFile (r : Run) (src dst : String) : Option Run :=
  match fsRead r.files src with
  | none => none
  | some content => some { r with files := fsWrite r.files dst content }

/-- `writeTaskProgress` from `src/utils/taskProgressUtils.ts` (lines 45-59):
serializes the record and overwrites `task-progress.json`; in the model the
write is appended to the `recordWrites` trace (the current persisted record
is the last write). -/
def writeTaskProgressR (r : Run) (p : TaskProgress) : Run :=
  { r with recordWrites := r.recordWrites ++ [p] }

/-- Outcome of one stage-boundary block of `resumeFromStage`:
`ret` — an early `return` with the run so far and the returned value;
`thrown` — an exception escaped the block (caught by the outer handler);
`cont` — fall through to the next block. -/
inductive StepOut where
  | ret (r : Run) (res : Option String)
  | thrown (r : Run)
  | cont (r : Run) (p : TaskProgress) (answers : List (Option String))
      (clock : List Int)

/-- Sequencing of stage-boundary blocks. -/
def StepOut.andThen (s : StepOut)
    (k : Run → TaskProgress → List (Option String) → List Int → StepOut) :
    StepOut :=
  match s with
  | .cont r p a c => k r p a c
  | other => other

/-- Step 1 of `resumeFromStage` (lines 183-199): the `created` boundary.
Dismissal or any answer other than `"Create plan.md"` returns at once with
no write; otherwise `plan.md` is presented and stage `plan` persisted. -/
def step1 (r : Run) (p : TaskProgress) (ans : List (Option String))
    (clk : List Int) : StepOut :=
  if getStageIndex p.currentStage ≤ getStageIndex "created" then
    match showQuickPick r "Task Planning" ans with
    | (r, a, ans) =>
      if a ≠ some "Create plan.md" then
        .ret r (some p.taskFolder)
      else
        let r := createAndOpenFileR r "plan.md"
        match takeTime clk with
        | (t, clk) =>
          let p := updateTaskProgressStage p "plan" t
          .cont (writeTaskProgressR r p) p ans clk
  else .cont r p ans clk

/-- Step 2 of `resumeFromStage` (lines 202-223): the `plan` boundary.
The produce branch presents `plan-review.md` and persists `plan-review`;
any other answer (including dismissal) copies `plan.md` to `plan-final.md`,
persists `completed` and returns. -/
def step2 (r : Run) (p : TaskProgress) (ans : List (Option String))
    (clk : List Int) : StepOut :=
  if getStageIndex p.currentStage ≤ getStageIndex "plan" then
    match showQuickPick r "Plan Review" ans with
    | (r, a, ans) =>
      if a ≠ some "Create plan-review.md" then
        match copyFile r "plan.md" "plan-final.md" with
        | none => .thrown r
        | some r =>
          match takeTime clk with
          | (t, clk) =>
            let p := updateTaskProgressStage p "completed" t
            let _ := clk
            .ret (writeTaskProgressR r p) (some p.taskFolder)
      else
        let r := createAndOpenFileR r "plan-review.md"
        match takeTime clk with
        | (t, clk) =>
          let p := updateTaskProgressStage p "plan-review" t
          .cont (writeTaskProgressR r p) p ans clk
  else .cont r p ans clk

/-- Step 3 of `resumeFromStage` (lines 226-253): the `plan-review`
boundary; skip copies `plan.md` to `plan-final.md` and completes. -/
def step3 (r : Run) (p : TaskProgress) (ans : List (Option String))
    (clk : List Int) : StepOut :=
  if getStageIndex p.currentStage ≤ getStageIndex "plan-review" then
    match showQuickPick r "Plan Update" ans with
    | (r, a, ans) =>
      if a ≠ some "Create plan-updated.md" then
        match copyFile r "plan.md" "plan-final.md" with
        | none => .thrown r
        | some r =>
          match takeTime clk with
          | (t, clk) =>
            let p := updateTaskProgressStage p "completed" t
            let _ := clk
            .ret (writeTaskProgressR r p) (some p.taskFolder)
      else
        let r := createAndOpenFileR r "plan-updated.md"
        match takeTime clk with
        | (t, clk) =>
          let p := updateTaskProgressStage p "plan-updated" t
          .cont (writeTaskProgressR r p) p ans clk
  else .cont r p ans clk

/-- Step 4 of `resumeFromStage` (lines 256-283): the `plan-updated`
boundary; skip copies `plan-updated.md` to `plan-final.md` and completes. -/
def step4 (r : Run) (p : TaskProgress) (ans : List (Option String))
    (clk : List Int) : StepOut :=
  if getStageIndex p.currentStage ≤ getStageIndex "plan-updated" then
    match showQuickPick r "Updated Plan Review" ans with
    | (r, a, ans) =>
      if a ≠ some "Create plan-updated-review.md" then
        match copyFile r "plan-updated.md" "plan-final.md" with
        | none => .thrown r
        | some r =>
          match takeTime clk with
          | (t, clk) =>
            let p := updateTaskProgressStage p "completed" t
            let _ := clk
            .ret (writeTaskProgressR r p) (some p.taskFolder)
      else
        let r := createAndOpenFileR r "plan-updated-review.md"
        match takeTime clk with
        | (t, clk) =>
          let p := updateTaskProgressStage p "plan-updated-review" t
          .cont (writeTaskProgressR r p) p ans clk
  else .cont r p ans clk

/-- Step 5 of `resumeFromStage` (lines 286-314): the `plan-updated-review`
boundary.  Produce presents `plan-final.md` and persists `plan-final`; skip
copies `plan-updated.md` to `plan-final.md` with no intermediate write.
In either case the block then persists `completed` and falls through. -/
def step5 (r : Run) (p : TaskProgress) (ans : List (Option String))
    (clk : List Int) : StepOut :=
  if getStageIndex p.currentStage ≤ getStageIndex "plan-updated-review" then
    match showQuickPick r "Final Plan" ans with
    | (r, a, ans) =>
      if a = some "Create plan-final.md" then
        let r := createAndOpenFileR r "plan-final.md"
        match takeTime clk with
        | (t, clk) =>
          let p := updateTaskProgressStage p "plan-final" t
          let r := writeTaskProgressR r p
          match takeTime clk with
          | (t2, clk) =>
            let p := updateTaskProgressStage p "completed" t2
            .cont (writeTaskProgressR r p) p ans clk
      else
        match copyFile r "plan-updated.md" "plan-final.md" with
        | none => .thrown r
        | some r =>
          match takeTime clk with
          | (t, clk) =>
            let p := updateTaskProgressStage p "completed" t
            .cont (writeTaskProgressR r p) p ans clk
  else .cont r p ans clk

/-- The `plan-final` handler of `resumeFromStage` (lines 317-323): persists
`completed` and reports. -/
def step6 (r : Run) (p : TaskProgress) (ans : List (Option String))
    (clk : List Int) : StepOut :=
  if p.currentStage = "plan-final" then
    match takeTime clk with
    | (t, clk) =>
      let p := updateTaskProgressStage p "completed" t
      let r := writeTaskProgressR r p
      .cont { r with messages := r.messages ++
          ["Task " ++ p.taskFolder ++ " marked as completed."] } p ans clk
  else .cont r p ans clk

/-- `resumeFromStage` from `src/commands/resumeTask.ts` (lines 127-341):
the six stage-boundary blocks in sequence, the `completed` report (which
tests the stage of the record passed in, line 326), the final
`return currentProgress.taskFolder`, and the outer catch that surfaces any
thrown error as a message and returns `undefined`. -/
def finishResume (progress : TaskProgress) (out : StepOut) :
    Run × Option String :=
  match out with
  | .ret r res => (r, res)
  | .thrown r =>
      ({ r with messages := r.messages ++ ["Failed to resume task"] }, none)
  | .cont r p _ _ =>
      let r :=
        if progress.currentStage = "completed" then
          { r with messages := r.messages ++
              ["Task " ++ p.taskFolder ++ " is already completed."] }
        else r
      (r, some p.taskFolder)

def resumeFromStage (files0 : List (String × String)) (progress : TaskProgress)
    (answers : List (Option String)) (clock : List Int) :
    Run × Option String :=
  let r0 : Run :=
    { files := files0, recordWrites := [], prompts := [], messages := [] }
  finishResume progress
    ((((((step1 r0 progress answers clock).andThen step2).andThen
        step3).andThen step4).andThen step5).andThen step6)

/-- Outcome of one prompt block of `startNewTask`: an early `return`
(also covering the caught-exception path) or fall-through. -/
inductive NewOut where
  | ret (r : Run) (res : Option String)
  | cont (r : Run) (answers : List (Option String))

/-- Sequencing of `startNewTask` prompt blocks. -/
def NewOut.andThen (s : NewOut) (k : Run → List (Option String) → NewOut) :
    NewOut :=
  match s with
  | .cont r a => k r a
  | other => other

/-- Step 2 of `startNewTask` (lines 146-159): prompt for `plan.md`; any
answer other than `"Create plan.md"` returns the folder name at once. -/
def newStep2 (name : String) (r : Run) (ans : List (Option String)) :
    NewOut :=
  match showQuickPick r "Task Planning" ans with
  | (r, a, ans) =>
    if a ≠ some "Create plan.md" then .ret r (some name)
    else .cont (createAndOpenFileNewR r "plan.md") ans

/-- Step 3 of `startNewTask` (lines 161-177): prompt for `plan-review.md`;
the skip path copies `plan.md` to `plan-final.md` (the outer catch turns a
failed copy into an error message and `undefined`). -/
def newStep3 (name : String) (r : Run) (ans : List (Option String)) :
    NewOut :=
  match showQuickPick r "Plan Review" ans with
  | (r, a, ans) =>
    if a ≠ some "Create plan-review.md" then
      match copyFile r "plan.md" "plan-final.md" with
      | none =>
          .ret { r with messages := r.messages ++
              ["Failed to create task folder"] } none
      | some r => .ret r (some name)
    else .cont (createAndOpenFileNewR r "plan-review.md") ans

/-- Step 4 of `startNewTask` (lines 179-195): prompt for `plan-updated.md`;
the skip path copies `plan.md` to `plan-final.md`. -/
def newStep4 (name : String) (r : Run) (ans : List (Option String)) :
    NewOut :=
  match showQuickPick r "Plan Update" ans with
  | (r, a, ans) =>
    if a ≠ some "Create plan-updated.md" then
      match copyFile r "plan.md" "plan-final.md" with
      | none =>
          .ret { r with messages := r.messages ++
              ["Failed to create task folder"] } none
      | some r => .ret r (some name)
    else .cont (createAndOpenFileNewR r "plan-updated.md") ans

/-- Step 5 of `startNewTask` (lines 197-213): prompt for
`plan-updated-review.md`; the skip path copies `plan-updated.md` to
`plan-final.md`. -/
def newStep5 (name : String) (r : Run) (ans : List (Option String)) :
    NewOut :=
  match showQuickPick r "Updated Plan Review" ans with
  | (r, a, ans) =>
    if a ≠ some "Create plan-updated-review.md" then
      match copyFile r "plan-updated.md" "plan-final.md" with
      | none =>
          .ret { r with messages := r.messages ++
              ["Failed to create task folder"] } none
      | some r => .ret r (some name)
    else .cont (createAndOpenFileNewR r "plan-updated-review.md") ans

/-- Step 6 of `startNewTask` (lines 215-232): prompt for `plan-final.md`;
producing presents it, otherwise `plan-updated.md` is copied over it; in
both cases the folder name is returned. -/
def newStep6 (name : String) (r : Run) (ans : List (Option String)) :
    NewOut :=
  match showQuickPick r "Final Plan" ans with
  | (r, a, _) =>
    if a = some "Create plan-final.md" then
      .ret (createAndOpenFileNewR r "plan-final.md") (some name)
    else
      match copyFile r "plan-updated.md" "plan-final.md" with
      | none =>
          .ret { r with messages := r.messages ++
              ["Failed to create task folder"] } none
      | some r => .ret r (some name)

/-- `startNewTask` from `src/commands/startNewTask.ts` (lines 53-241).
`metaPath` is the configured root path (`""` = not configured),
`workspaceOpen` models `vscode.workspace.workspaceFolders` being non-empty,
`rootEntries` is the enumeration of the meta folder used for numbering
(`none` = `readDirectory` throws), `dirCreateOk` models `createDirectory`
succeeding, `dateStr` is `formatDate(new Date())`, and `files0` is the
content of the target task folder (normally empty for a fresh folder).
Note: no branch of the source ever calls `createTaskProgress` or
`writeTaskProgress`, so `recordWrites` is never extended. -/
def startNewTask (metaPath : String) (workspaceOpen : Bool)
    (rootEntries : Option (List (String × FileType))) (dirCreateOk : Bool)
    (dateStr : String) (files0 : List (String × String))
    (answers : List (Option String)) : Run × Option String :=
  let r0 : Run :=
    { files := files0, recordWrites := [], prompts := [], messages := [] }
  if metaPath = "" then
    ({ r0 with messages := r0.messages ++
        ["No meta resources folder configured. Please set one first."] },
     none)
  else if workspaceOpen = false then
    ({ r0 with messages := r0.messages ++
        ["No workspace folder open. Please open a folder first."] }, none)
  else
    let taskNumber := getNextTaskNumber rootEntries dateStr
    let taskFolderName := dateStr ++ "_task_" ++ toString taskNumber
    if dirCreateOk = false then
      ({ r0 with messages := r0.messages ++
          ["Failed to create task folder"] }, none)
    else
      let r := { r0 with messages := r0.messages ++
          ["Created new task folder: " ++ taskFolderName] }
      match ((((newStep2 taskFolderName r answers).andThen
          (newStep3 taskFolderName)).andThen
          (newStep4 taskFolderName)).andThen
          (newStep5 taskFolderName)).andThen
          (newStep6 taskFolderName) with
      | .ret r res => (r, res)
      | .cont r _ => (r, some taskFolderName)

/-- Task discovery as the specification words it: keep exactly the
directory entries whose progress record loads successfully (non-absent) and
whose `currentStage` is not `completed`, in discovery order (unsorted). -/
def incompleteBySpec (es : List DirEntry) : List IncompleteTask :=
  es.filterMap fun e =>
    if e.type = FileType.directory then
      match readTaskProgress e.record with
      | some progress =>
          if stageIsCompleted progress then none
          else some { folderName := e.name, progress := progress }
      | none => none
    else none

/-- The copy source the skip branch of each prompting boundary uses
(spec table in section 4.4): `plan.md` at the `plan` and `plan-review`
boundaries, `plan-updated.md` at the `plan-updated` and
`plan-updated-review` boundaries. -/
def skipSource : String → Option String
  | "plan" => some "plan.md"
  | "plan-review" => some "plan.md"
  | "plan-updated" => some "plan-updated.md"
  | "plan-updated-review" => some "plan-updated.md"
  | _ => none

/-- The `Run` component of a `startNewTask` prompt-block outcome. -/
def NewOut.run : NewOut → Run
  | .ret r _ => r
  | .cont r _ => r

/-- The `Run` component of a `resumeFromStage` block outcome. -/
def StepOut.run : StepOut → Run
  | .ret r _ => r
  | .thrown r => r
  | .cont r _ _ _ => r

/-- The forward order on stage strings induced by `getStageIndex`; on the
seven canonical stage names it coincides with the canonical order
`created < plan < ... < completed`. -/
def stageLe (a b : String) : Prop := getStageIndex a ≤ getStageIndex b

/-- The sequence of stage values persisted by the record writes of a run. -/
def writtenStages (r : Run) : List String :=
  r.recordWrites.map (fun q => q.currentStage)

/-- Invariant threaded through the stage blocks: all record writes so far
are forward-ordered starting from the loaded stage `s0`, and the stage of
the in-memory record equals the last persisted stage (or `s0` if nothing
was written yet). -/
def WritesOK (s0 : String) (cur : String) (r : Run) : Prop :=
  List.Chain' stageLe (s0 :: writtenStages r) ∧
  (writtenStages r).getLastD s0 = cur

/-- The invariant at a block outcome: for early returns and throws the
forward chain holds; for fall-through it holds together with the
last-write/current-stage link. -/
def OutOK (s0 : String) : StepOut → Prop
  | .ret r _ => List.Chain' stageLe (s0 :: writtenStages r)
  | .thrown r => List.Chain' stageLe (s0 :: writtenStages r)
  | .cont r p _ _ => WritesOK s0 p.currentStage r

theorem getStageIndex_created : getStageIndex "created" = 0 := rfl

theorem getStageIndex_plan : getStageIndex "plan" = 1 := rfl

theorem getStageIndex_planReview : getStageIndex "plan-review" = 2 := rfl

theorem getStageIndex_planUpdated : getStageIndex "plan-updated" = 3 := rfl

theorem getStageIndex_planUpdatedReview :
    getStageIndex "plan-updated-review" = 4 := rfl

theorem getStageIndex_planFinal : getStageIndex "plan-final" = 5 := rfl

theorem getStageIndex_completed : getStageIndex "completed" = 6 := rfl

/-- C8: `updateTaskProgressStage` keeps `taskFolder` and `createdAt`, sets
`currentStage` to the requested stage, and, whenever the clock reading is
strictly beyond the record's `updatedAt` (clock monotonicity), the new
`updatedAt` is strictly greater than the old one. -/
theorem updateTaskProgressStage_advances (p : TaskProgress) (s : String)
    (now : Int) (h : p.updatedAt < now) :
    (updateTaskProgressStage p s now).taskFolder = p.taskFolder ∧
    (updateTaskProgressStage p s now).createdAt = p.createdAt ∧
    (updateTaskProgressStage p s now).currentStage = s ∧
    p.updatedAt < (updateTaskProgressStage p s now).updatedAt :=
  ⟨rfl, rfl, rfl, h⟩

theorem updateTaskProgressStage_advances_witness :
    (⟨"2025-01-01_task_1", "plan", 5, 7⟩ : TaskProgress).updatedAt < 9 ∧
    ((updateTaskProgressStage ⟨"2025-01-01_task_1", "plan", 5, 7⟩
        "plan-review" 9).taskFolder = "2025-01-01_task_1" ∧
      (updateTaskProgressStage ⟨"2025-01-01_task_1", "plan", 5, 7⟩
        "plan-review" 9).createdAt = 5 ∧
      (updateTaskProgressStage ⟨"2025-01-01_task_1", "plan", 5, 7⟩
        "plan-review" 9).currentStage = "plan-review" ∧
      (⟨"2025-01-01_task_1", "plan", 5, 7⟩ : TaskProgress).updatedAt <
        (updateTaskProgressStage ⟨"2025-01-01_task_1", "plan", 5, 7⟩
          "plan-review" 9).updatedAt) :=
  ⟨by decide,
   updateTaskProgressStage_advances ⟨"2025-01-01_task_1", "plan", 5, 7⟩
     "plan-review" 9 (by decide)⟩

/-- C7 counterexample: a record file whose content is the JSON text `42`
parses successfully, so `readTaskProgress` returns it (not "absent"), even
though it is not a well-formed `ProgressRecord`. -/
theorem readTaskProgress_malformed_not_absent :
    readTaskProgress (ReadResult.parsed (Json.num 42)) =
      some (Json.num 42) ∧
    isWellFormedProgress (Json.num 42) = false :=
  ⟨rfl, rfl⟩

/-- C7 (amended): `readTaskProgress` yields "absent" exactly when the file
is missing/unreadable or its content is not parseable JSON; content that
parses is returned as-is with no shape validation, and no exception ever
propagates (the function is total). -/
theorem readTaskProgress_absent_iff (file : ReadResult) :
    readTaskProgress file = none ↔
      (file = ReadResult.unreadable ∨ file = ReadResult.unparseable) := by
  cases file <;> simp [readTaskProgress]

/-- Read-after-write on the modelled task folder. -/
theorem fsRead_fsWrite (files : List (String × String)) (name c : String) :
    fsRead (fsWrite files name c) name = some c := by
  simp [fsRead, fsWrite, List.find?_cons]

/-- C3 counterexample: `startNewTask`'s `createAndOpenFile` truncates an
existing artifact file, destroying its content. -/
theorem createAndOpenFileNew_truncates :
    createAndOpenFileNew [("plan.md", "keep me")] "plan.md" =
      [("plan.md", "")] ∧
    ([("plan.md", "")] : List (String × String)) ≠
      [("plan.md", "keep me")] := by
  constructor
  · rfl
  · decide

/-- C3 (amended): `resumeTask`'s `createAndOpenFile` opens an existing
artifact as-is (the folder is unchanged) and creates it empty only when it
is missing; `startNewTask`'s `createAndOpenFile` instead writes an empty
file unconditionally, truncating any existing content. -/
theorem createAndOpenFile_behavior (files : List (String × String))
    (name : String) :
    ((fsRead files name).isSome → createAndOpenFile files name = files) ∧
    (fsRead files name = none →
      fsRead (createAndOpenFile files name) name = some "") ∧
    fsRead (createAndOpenFileNew files name) name = some "" := by
  refine ⟨fun h => ?_, fun h => ?_, ?_⟩
  · simp [createAndOpenFile, h]
  · simp [createAndOpenFile, h, fsRead_fsWrite]
  · simp [createAndOpenFileNew, fsRead_fsWrite]

theorem createAndOpenFile_behavior_witness :
    createAndOpenFile [("plan.md", "x")] "plan.md" = [("plan.md", "x")] ∧
    fsRead (createAndOpenFile [("plan.md", "x")] "plan-review.md")
      "plan-review.md" = some "" ∧
    fsRead (createAndOpenFileNew [("plan.md", "x")] "plan.md") "plan.md" =
      some "" :=
  ⟨(createAndOpenFile_behavior [("plan.md", "x")] "plan.md").1 (by decide),
   (createAndOpenFile_behavior [("plan.md", "x")] "plan-review.md").2.1
     (by decide),
   (createAndOpenFile_behavior [("plan.md", "x")] "plan.md").2.2⟩

/-- C5: resuming a task whose persisted record is at `completed` performs no
file writes of any kind — no artifact is created or copied, no record is
written, no prompt is even shown — and the only observable effect is the
"already completed" message; the task folder name is returned. -/
theorem resume_completed_pure_report (f : List (String × String))
    (p : TaskProgress) (ans : List (Option String)) (clk : List Int)
    (h : p.currentStage = "completed") :
    (resumeFromStage f p ans clk).1.files = f ∧
    (resumeFromStage f p ans clk).1.recordWrites = [] ∧
    (resumeFromStage f p ans clk).1.prompts = [] ∧
    (resumeFromStage f p ans clk).1.messages =
      ["Task " ++ p.taskFolder ++ " is already completed."] ∧
    (resumeFromStage f p ans clk).2 = some p.taskFolder := by
  obtain ⟨tf, cs, ca, ua⟩ := p
  simp only [TaskProgress.currentStage] at h
  subst h
  simp [resumeFromStage, finishResume, StepOut.andThen, step1, step2, step3, step4, step5,
        step6, getStageIndex_completed, getStageIndex_created,
        getStageIndex_plan, getStageIndex_planReview,
        getStageIndex_planUpdated, getStageIndex_planUpdatedReview]

theorem resume_completed_pure_report_witness :
    ((⟨"t1", "completed", 0, 3⟩ : TaskProgress).currentStage = "completed") ∧
    ((resumeFromStage [("plan.md", "x")] ⟨"t1", "completed", 0, 3⟩
        [none] [9]).1.files = [("plan.md", "x")] ∧
      (resumeFromStage [("plan.md", "x")] ⟨"t1", "completed", 0, 3⟩
        [none] [9]).1.recordWrites = [] ∧
      (resumeFromStage [("plan.md", "x")] ⟨"t1", "completed", 0, 3⟩
        [none] [9]).1.prompts = [] ∧
      (resumeFromStage [("plan.md", "x")] ⟨"t1", "completed", 0, 3⟩
        [none] [9]).1.messages =
        ["Task " ++ "t1" ++ " is already completed."] ∧
      (resumeFromStage [("plan.md", "x")] ⟨"t1", "completed", 0, 3⟩
        [none] [9]).2 = some "t1") :=
  ⟨rfl, resume_completed_pure_report [("plan.md", "x")]
    ⟨"t1", "completed", 0, 3⟩ [none] [9] rfl⟩

/-- C2 counterexample: a task persisted at `plan` whose prompt is dismissed
(`showQuickPick` returns `undefined`).  The engine does not pause: it copies
`plan.md` to `plan-final.md` (a file write) and persists a `completed`
record — the stage does not stay at `plan`. -/
theorem resume_dismissal_counterexample :
    (resumeFromStage [("plan.md", "x")] ⟨"t", "plan", 0, 0⟩
        [none] [5]).1.recordWrites = [⟨"t", "completed", 0, 5⟩] ∧
    (resumeFromStage [("plan.md", "x")] ⟨"t", "plan", 0, 0⟩
        [none] [5]).1.files ≠ [("plan.md", "x")] := by
  constructor
  · rfl
  · decide

/-- C2 (amended): dismissing a prompt is indistinguishable from choosing its
second option.  At the `created` boundary this stops the engine with no
artifact or record write and the persisted stage unchanged; at the `plan`,
`plan-review`, `plan-updated` and `plan-updated-review` boundaries a
dismissal instead triggers the shortcut-to-completion: the relevant earlier
artifact is copied to `plan-final.md` and a `completed` record is
persisted. -/
theorem resume_dismissal_behavior (f : List (String × String))
    (p : TaskProgress) (ans : List (Option String)) (clk : List Int) :
    (p.currentStage = "created" →
      (resumeFromStage f p (none :: ans) clk).1.files = f ∧
      (resumeFromStage f p (none :: ans) clk).1.recordWrites = [] ∧
      (resumeFromStage f p (none :: ans) clk).2 = some p.taskFolder) ∧
    (∀ src, skipSource p.currentStage = some src →
      (fsRead f src).isSome →
      (resumeFromStage f p (none :: ans) clk).1.recordWrites.map
          (fun q => q.currentStage) = ["completed"] ∧
      fsRead (resumeFromStage f p (none :: ans) clk).1.files
          "plan-final.md" = fsRead f src ∧
      (resumeFromStage f p (none :: ans) clk).2 = some p.taskFolder) := by
  obtain ⟨tf, cs, ca, ua⟩ := p
  constructor
  · intro h
    simp only [TaskProgress.currentStage] at h
    subst h
    simp [resumeFromStage, finishResume, StepOut.andThen, step1, showQuickPick,
          getStageIndex_created]
  · intro src hs hread
    obtain ⟨c, hc⟩ := Option.isSome_iff_exists.mp hread
    simp only [TaskProgress.currentStage] at hs
    unfold skipSource at hs
    split at hs
    · cases hs
      simp [resumeFromStage, finishResume, StepOut.andThen, step1, step2, step3,
            step4, step5, step6, showQuickPick, copyFile, hc, takeTime,
            updateTaskProgressStage, writeTaskProgressR, fsRead_fsWrite,
            getStageIndex_created, getStageIndex_plan,
            getStageIndex_planReview, getStageIndex_planUpdated,
            getStageIndex_planUpdatedReview]
    · cases hs
      simp [resumeFromStage, finishResume, StepOut.andThen, step1, step2, step3,
            step4, step5, step6, showQuickPick, copyFile, hc, takeTime,
            updateTaskProgressStage, writeTaskProgressR, fsRead_fsWrite,
            getStageIndex_created, getStageIndex_plan,
            getStageIndex_planReview, getStageIndex_planUpdated,
            getStageIndex_planUpdatedReview]
    · cases hs
      simp [resumeFromStage, finishResume, StepOut.andThen, step1, step2, step3,
            step4, step5, step6, showQuickPick, copyFile, hc, takeTime,
            updateTaskProgressStage, writeTaskProgressR, fsRead_fsWrite,
            getStageIndex_created, getStageIndex_plan,
            getStageIndex_planReview, getStageIndex_planUpdated,
            getStageIndex_planUpdatedReview]
    · cases hs
      simp [resumeFromStage, finishResume, StepOut.andThen, step1, step2, step3,
            step4, step5, step6, showQuickPick, copyFile, hc, takeTime,
            updateTaskProgressStage, writeTaskProgressR, fsRead_fsWrite,
            getStageIndex_created, getStageIndex_plan,
            getStageIndex_planReview, getStageIndex_planUpdated,
            getStageIndex_planUpdatedReview]
    · cases hs

theorem resume_dismissal_behavior_witness :
    ((resumeFromStage [] ⟨"t", "created", 0, 0⟩ [none] []).1.files = [] ∧
      (resumeFromStage [] ⟨"t", "created", 0, 0⟩
        [none] []).1.recordWrites = [] ∧
      (resumeFromStage [] ⟨"t", "created", 0, 0⟩ [none] []).2 = some "t") ∧
    ((resumeFromStage [("plan.md", "x")] ⟨"t", "plan", 0, 0⟩
        [none] [5]).1.recordWrites.map (fun q => q.currentStage) =
        ["completed"] ∧
      fsRead (resumeFromStage [("plan.md", "x")] ⟨"t", "plan", 0, 0⟩
        [none] [5]).1.files "plan-final.md" =
        fsRead [("plan.md", "x")] "plan.md" ∧
      (resumeFromStage [("plan.md", "x")] ⟨"t", "plan", 0, 0⟩
        [none] [5]).2 = some "t") :=
  ⟨(resume_dismissal_behavior [] ⟨"t", "created", 0, 0⟩ [] []).1 rfl,
   (resume_dismissal_behavior [("plan.md", "x")] ⟨"t", "plan", 0, 0⟩
      [] [5]).2 "plan.md" rfl (by decide)⟩

theorem le_taskNumStep (dateStr : String) (acc : Nat)
    (e : String × FileType) : acc ≤ taskNumStep dateStr acc e := by
  unfold taskNumStep
  split
  · split
    · split <;> omega
    · exact le_refl _
  · exact le_refl _

theorem taskNumStep_ub (dateStr : String) (acc : Nat)
    (e : String × FileType) (hdir : e.2 = FileType.directory) (n : Nat)
    (hm : matchTaskNumber dateStr e.1 = some n) :
    n ≤ taskNumStep dateStr acc e := by
  unfold taskNumStep
  rw [if_pos hdir, hm]
  show n ≤ if n > acc then n else acc
  split <;> omega

theorem taskNumStep_cases (dateStr : String) (acc : Nat)
    (e : String × FileType) :
    taskNumStep dateStr acc e = acc ∨
      (e.2 = FileType.directory ∧
        matchTaskNumber dateStr e.1 = some (taskNumStep dateStr acc e)) := by
  unfold taskNumStep
  split
  · rename_i hdir
    split
    · rename_i taskNum hm
      split
      · exact Or.inr ⟨hdir, hm⟩
      · exact Or.inl rfl
    · exact Or.inl rfl
  · exact Or.inl rfl

theorem le_taskNumFold (dateStr : String) (es : List (String × FileType)) :
    ∀ acc : Nat, acc ≤ taskNumFold dateStr es acc := by
  induction es with
  | nil => intro acc; simp [taskNumFold]
  | cons e es ih =>
    intro acc
    simp only [taskNumFold, List.foldl_cons] at ih ⊢
    exact le_trans (le_taskNumStep dateStr acc e) (ih _)

theorem taskNumFold_ub (dateStr : String) (e : String × FileType)
    (hdir : e.2 = FileType.directory) (n : Nat)
    (hm : matchTaskNumber dateStr e.1 = some n)
    (es : List (String × FileType)) :
    ∀ acc : Nat, e ∈ es → n ≤ taskNumFold dateStr es acc := by
  induction es with
  | nil => intro acc he; cases he
  | cons e' es ih =>
    intro acc he
    simp only [taskNumFold, List.foldl_cons] at ih ⊢
    rcases List.mem_cons.mp he with h | h
    · subst h
      exact le_trans (taskNumStep_ub dateStr acc e hdir n hm)
        (le_taskNumFold dateStr es _)
    · exact ih _ h

theorem taskNumFold_attained (dateStr : String)
    (es : List (String × FileType)) :
    ∀ acc : Nat, taskNumFold dateStr es acc = acc ∨
      ∃ e ∈ es, e.2 = FileType.directory ∧
        matchTaskNumber dateStr e.1 = some (taskNumFold dateStr es acc) := by
  induction es with
  | nil => intro acc; exact Or.inl rfl
  | cons e' es ih =>
    intro acc
    simp only [taskNumFold, List.foldl_cons] at ih ⊢
    rcases ih (taskNumStep dateStr acc e') with h | h
    · rw [h]
      rcases taskNumStep_cases dateStr acc e' with h2 | h2
      · exact Or.inl h2
      · exact Or.inr ⟨e', List.mem_cons_self _ _, h2.1, h2.2⟩
    · obtain ⟨e, hmem, hdir, hm⟩ := h
      exact Or.inr ⟨e, List.mem_cons_of_mem _ hmem, hdir, hm⟩

/-- C9: the allocated task number for date `dateStr` is one more than the
maximum matched `{dateStr}_task_{n}` number among existing sibling
directories (so gaps are never filled), and it is 1 when no sibling matches
the date or the root enumeration fails. -/
theorem getNextTaskNumber_max_plus_one
    (entries : List (String × FileType)) (dateStr : String) :
    getNextTaskNumber none dateStr = 1 ∧
    (∀ e ∈ entries, e.2 = FileType.directory →
      ∀ n, matchTaskNumber dateStr e.1 = some n →
        n < getNextTaskNumber (some entries) dateStr) ∧
    (getNextTaskNumber (some entries) dateStr = 1 ∨
      ∃ e ∈ entries, e.2 = FileType.directory ∧
        matchTaskNumber dateStr e.1 =
          some (getNextTaskNumber (some entries) dateStr - 1)) ∧
    ((∀ e ∈ entries, e.2 = FileType.directory →
        matchTaskNumber dateStr e.1 = none) →
      getNextTaskNumber (some entries) dateStr = 1) := by
  refine ⟨rfl, ?_, ?_, ?_⟩
  · intro e he hdir n hm
    have := taskNumFold_ub dateStr e hdir n hm entries 0 he
    simp only [getNextTaskNumber]
    omega
  · rcases taskNumFold_attained dateStr entries 0 with h | h
    · exact Or.inl (by simp [getNextTaskNumber, h])
    · obtain ⟨e, hmem, hdir, hm⟩ := h
      exact Or.inr ⟨e, hmem, hdir, by simpa [getNextTaskNumber] using hm⟩
  · intro hnone
    rcases taskNumFold_attained dateStr entries 0 with h | h
    · simp [getNextTaskNumber, h]
    · obtain ⟨e, hmem, hdir, hm⟩ := h
      rw [hnone e hmem hdir] at hm
      cases hm

theorem getNextTaskNumber_max_plus_one_witness :
    getNextTaskNumber
        (some [("2025-01-01_task_1", FileType.directory),
               ("notes", FileType.file),
               ("2025-01-01_task_3", FileType.directory)])
        "2025-01-01" = 4 ∧
    (∀ e ∈ [("2025-01-01_task_1", FileType.directory),
            ("notes", FileType.file),
            ("2025-01-01_task_3", FileType.directory)],
      e.2 = FileType.directory →
      ∀ n, matchTaskNumber "2025-01-01" e.1 = some n →
        n < getNextTaskNumber
              (some [("2025-01-01_task_1", FileType.directory),
                     ("notes", FileType.file),
                     ("2025-01-01_task_3", FileType.directory)])
              "2025-01-01") :=
  ⟨by decide,
   (getNextTaskNumber_max_plus_one
      [("2025-01-01_task_1", FileType.directory),
       ("notes", FileType.file),
       ("2025-01-01_task_3", FileType.directory)] "2025-01-01").2.1⟩

theorem copyFile_recordWrites (r r' : Run) (s d : String)
    (h : copyFile r s d = some r') : r'.recordWrites = r.recordWrites := by
  unfold copyFile at h
  cases hf : fsRead r.files s with
  | none => rw [hf] at h; cases h
  | some c => rw [hf] at h; cases h; rfl

theorem showQuickPick_run_recordWrites (r : Run) (t : String)
    (ans : List (Option String)) :
    (showQuickPick r t ans).1.recordWrites = r.recordWrites := by
  cases ans <;> rfl

theorem createAndOpenFileNewR_recordWrites (r : Run) (n : String) :
    (createAndOpenFileNewR r n).recordWrites = r.recordWrites := rfl

theorem newStep2_recordWrites (name : String) (r : Run)
    (ans : List (Option String)) :
    (newStep2 name r ans).run.recordWrites = r.recordWrites := by
  unfold newStep2
  cases ans <;> (simp only [showQuickPick]; split) <;> rfl

theorem newStep3_recordWrites (name : String) (r : Run)
    (ans : List (Option String)) :
    (newStep3 name r ans).run.recordWrites = r.recordWrites := by
  unfold newStep3
  cases ans <;>
    (simp only [showQuickPick]
     split
     · split
       · rfl
       · rename_i r' h
         have h2 := copyFile_recordWrites _ r' _ _ h
         simp [NewOut.run, h2]
     · rfl)

theorem newStep4_recordWrites (name : String) (r : Run)
    (ans : List (Option String)) :
    (newStep4 name r ans).run.recordWrites = r.recordWrites := by
  unfold newStep4
  cases ans <;>
    (simp only [showQuickPick]
     split
     · split
       · rfl
       · rename_i r' h
         have h2 := copyFile_recordWrites _ r' _ _ h
         simp [NewOut.run, h2]
     · rfl)

theorem newStep5_recordWrites (name : String) (r : Run)
    (ans : List (Option String)) :
    (newStep5 name r ans).run.recordWrites = r.recordWrites := by
  unfold newStep5
  cases ans <;>
    (simp only [showQuickPick]
     split
     · split
       · rfl
       · rename_i r' h
         have h2 := copyFile_recordWrites _ r' _ _ h
         simp [NewOut.run, h2]
     · rfl)

theorem newStep6_recordWrites (name : String) (r : Run)
    (ans : List (Option String)) :
    (newStep6 name r ans).run.recordWrites = r.recordWrites := by
  unfold newStep6
  cases ans <;>
    (simp only [showQuickPick]
     split
     · rfl
     · split
       · rfl
       · rename_i r' h
         have h2 := copyFile_recordWrites _ r' _ _ h
         simp [NewOut.run, h2])

theorem andThen_run_recordWrites (s : NewOut)
    (k : Run → List (Option String) → NewOut)
    (hk : ∀ r a, (k r a).run.recordWrites = r.recordWrites) :
    (s.andThen k).run.recordWrites = s.run.recordWrites := by
  cases s
  · rfl
  · exact hk _ _

theorem newOut_match_fst (out : NewOut) (n : String) :
    (match out with
     | NewOut.ret r res => (r, res)
     | NewOut.cont r _ => (r, some n)).1 = out.run := by
  cases out <;> rfl

theorem startNewTask_recordWrites_nil (mp : String) (wo : Bool)
    (re : Option (List (String × FileType))) (dc : Bool) (ds : String)
    (f0 : List (String × String)) (a0 : List (Option String)) :
    (startNewTask mp wo re dc ds f0 a0).1.recordWrites = [] := by
  unfold startNewTask
  split
  · rfl
  split
  · rfl
  split
  · rfl
  rw [newOut_match_fst,
    andThen_run_recordWrites _ _ (fun r a => newStep6_recordWrites _ r a),
    andThen_run_recordWrites _ _ (fun r a => newStep5_recordWrites _ r a),
    andThen_run_recordWrites _ _ (fun r a => newStep4_recordWrites _ r a),
    andThen_run_recordWrites _ _ (fun r a => newStep3_recordWrites _ r a),
    newStep2_recordWrites]

/-- C1 (code bug evidence): on a configured root with an open workspace,
`startNewTask` creates the task folder (the creation message is shown and
the folder name returned) and then prompts — but across every input and
every user-choice sequence it performs no `writeTaskProgress` call at all,
so no initial `ProgressRecord` is ever persisted.  `createTaskProgress`
would build exactly the record the claim describes (`currentStage =
"created"`, equal timestamps), but no code path invokes it. -/
theorem startNewTask_never_persists_record :
    (∀ mp wo re dc ds f0 a0,
      (startNewTask mp wo re dc ds f0 a0).1.recordWrites = []) ∧
    (startNewTask "meta" true (some []) true "2025-01-01" []
        [none]).1.messages =
      ["Created new task folder: 2025-01-01_task_1"] ∧
    (startNewTask "meta" true (some []) true "2025-01-01" []
        [none]).1.prompts = ["Task Planning"] ∧
    (startNewTask "meta" true (some []) true "2025-01-01" [] [none]).2 =
      some "2025-01-01_task_1" ∧
    (∀ tf now, createTaskProgress tf now =
      { taskFolder := tf, currentStage := "created",
        createdAt := now, updatedAt := now }) :=
  ⟨startNewTask_recordWrites_nil, by decide, by decide, by decide,
   fun _ _ => rfl⟩

theorem copyFile_prompts (r r' : Run) (s d : String)
    (h : copyFile r s d = some r') : r'.prompts = r.prompts := by
  unfold copyFile at h
  cases hf : fsRead r.files s with
  | none => rw [hf] at h; cases h
  | some c => rw [hf] at h; cases h; rfl

theorem step2_prompts_extends (r : Run) (p : TaskProgress)
    (ans : List (Option String)) (clk : List Int) :
    ∃ t, (step2 r p ans clk).run.prompts = r.prompts ++ t := by
  unfold step2
  split
  · cases ans <;>
      (simp only [showQuickPick]
       split
       · split
         · exact ⟨["Plan Review"], rfl⟩
         · rename_i r2 h
           exact ⟨["Plan Review"], copyFile_prompts _ r2 _ _ h⟩
       · exact ⟨["Plan Review"], rfl⟩)
  · exact ⟨[], (List.append_nil _).symm⟩

theorem step3_prompts_extends (r : Run) (p : TaskProgress)
    (ans : List (Option String)) (clk : List Int) :
    ∃ t, (step3 r p ans clk).run.prompts = r.prompts ++ t := by
  unfold step3
  split
  · cases ans <;>
      (simp only [showQuickPick]
       split
       · split
         · exact ⟨["Plan Update"], rfl⟩
         · rename_i r2 h
           exact ⟨["Plan Update"], copyFile_prompts _ r2 _ _ h⟩
       · exact ⟨["Plan Update"], rfl⟩)
  · exact ⟨[], (List.append_nil _).symm⟩

theorem step4_prompts_extends (r : Run) (p : TaskProgress)
    (ans : List (Option String)) (clk : List Int) :
    ∃ t, (step4 r p ans clk).run.prompts = r.prompts ++ t := by
  unfold step4
  split
  · cases ans <;>
      (simp only [showQuickPick]
       split
       · split
         · exact ⟨["Updated Plan Review"], rfl⟩
         · rename_i r2 h
           exact ⟨["Updated Plan Review"], copyFile_prompts _ r2 _ _ h⟩
       · exact ⟨["Updated Plan Review"], rfl⟩)
  · exact ⟨[], (List.append_nil _).symm⟩

theorem step5_prompts_extends (r : Run) (p : TaskProgress)
    (ans : List (Option String)) (clk : List Int) :
    ∃ t, (step5 r p ans clk).run.prompts = r.prompts ++ t := by
  unfold step5
  split
  · cases ans <;>
      (simp only [showQuickPick]
       split
       · exact ⟨["Final Plan"], rfl⟩
       · split
         · exact ⟨["Final Plan"], rfl⟩
         · rename_i r2 h
           exact ⟨["Final Plan"], copyFile_prompts _ r2 _ _ h⟩)
  · exact ⟨[], (List.append_nil _).symm⟩

theorem step6_prompts_extends (r : Run) (p : TaskProgress)
    (ans : List (Option String)) (clk : List Int) :
    ∃ t, (step6 r p ans clk).run.prompts = r.prompts ++ t := by
  unfold step6
  split
  · exact ⟨[], (List.append_nil _).symm⟩
  · exact ⟨[], (List.append_nil _).symm⟩

theorem andThen_prompts_extends (s : StepOut)
    (k : Run → TaskProgress → List (Option String) → List Int → StepOut)
    (hk : ∀ r p a c, ∃ t, (k r p a c).run.prompts = r.prompts ++ t) :
    ∃ t, (s.andThen k).run.prompts = s.run.prompts ++ t := by
  cases s with
  | ret r res => exact ⟨[], (List.append_nil _).symm⟩
  | thrown r => exact ⟨[], (List.append_nil _).symm⟩
  | cont r p a c =>
    obtain ⟨t, ht⟩ := hk r p a c
    exact ⟨t, ht⟩

theorem getStageIndex_eq_neg_one (s : String) (h : s ∉ STAGE_ORDER) :
    getStageIndex s = -1 := by
  unfold getStageIndex
  have hnone : STAGE_ORDER.findIdx? (fun x => x == s) = none := by
    simp only [List.findIdx?_eq_none_iff]
    intro x hx
    simp only [beq_eq_false_iff_ne]
    exact fun he => h (he ▸ hx)
  rw [hnone]

theorem finishResume_prompts (orig : TaskProgress) (out : StepOut) :
    (finishResume orig out).1.prompts = out.run.prompts := by
  unfold finishResume
  cases out with
  | ret r res => rfl
  | thrown r => rfl
  | cont r p a c =>
    dsimp only
    split <;> rfl

theorem step1_prompts_of_le (r : Run) (p : TaskProgress)
    (ans : List (Option String)) (clk : List Int)
    (h : getStageIndex p.currentStage ≤ getStageIndex "created") :
    ∃ t, (step1 r p ans clk).run.prompts =
      (r.prompts ++ ["Task Planning"]) ++ t := by
  unfold step1
  rw [if_pos h]
  cases ans <;>
    (simp only [showQuickPick]
     split
     · exact ⟨[], (List.append_nil _).symm⟩
     · exact ⟨[], (List.append_nil _).symm⟩)

theorem cons_extends {x : String} {l l2 : List String}
    (h1 : ∃ t, l = x :: t) (h2 : ∃ t, l2 = l ++ t) : ∃ t, l2 = x :: t := by
  obtain ⟨t1, rfl⟩ := h1
  obtain ⟨t2, rfl⟩ := h2
  exact ⟨t1 ++ t2, rfl⟩

theorem resumeFromStage_first_prompt (f : List (String × String))
    (p : TaskProgress) (ans : List (Option String)) (clk : List Int)
    (h : getStageIndex p.currentStage ≤ 0) :
    (resumeFromStage f p ans clk).1.prompts.head? = some "Task Planning" := by
  unfold resumeFromStage
  rw [finishResume_prompts]
  have e1 : ∃ t, (step1 (Run.mk f [] [] []) p ans clk).run.prompts =
      "Task Planning" :: t := by
    obtain ⟨t, ht⟩ := step1_prompts_of_le (Run.mk f [] [] [])
      p ans clk (by simpa [getStageIndex_created] using h)
    exact ⟨t, by simpa using ht⟩
  have e2 := cons_extends e1
    (andThen_prompts_extends _ step2 step2_prompts_extends)
  have e3 := cons_extends e2
    (andThen_prompts_extends _ step3 step3_prompts_extends)
  have e4 := cons_extends e3
    (andThen_prompts_extends _ step4 step4_prompts_extends)
  have e5 := cons_extends e4
    (andThen_prompts_extends _ step5 step5_prompts_extends)
  have e6 := cons_extends e5
    (andThen_prompts_extends _ step6 step6_prompts_extends)
  obtain ⟨t, ht⟩ := e6
  rw [ht]
  rfl

/-- C10: `getStageIndex` returns `-1` on any string that is not one of the
seven stage names, and `resumeFromStage` on a record with such an
unrecognized persisted stage does not fail: the run is identical to a run
from the earliest stage (`created`), and the first prompt offered is the
create-initial-plan ("Task Planning") prompt. -/
theorem resume_unknown_stage (f : List (String × String)) (p : TaskProgress)
    (ans : List (Option String)) (clk : List Int)
    (h : p.currentStage ∉ STAGE_ORDER) :
    getStageIndex p.currentStage = -1 ∧
    resumeFromStage f p ans clk =
      resumeFromStage f { p with currentStage := "created" } ans clk ∧
    (resumeFromStage f p ans clk).1.prompts.head? = some "Task Planning" := by
  obtain ⟨tf, cs, ca, ua⟩ := p
  have hmem : cs ∉ STAGE_ORDER := by simpa using h
  have hidx : getStageIndex cs = -1 := getStageIndex_eq_neg_one cs hmem
  have hne : cs ≠ "completed" := fun he => hmem (by rw [he]; simp [STAGE_ORDER])
  refine ⟨by simpa using hidx, ?_, ?_⟩
  · have hstep : ∀ r : Run, step1 r ⟨tf, cs, ca, ua⟩ ans clk =
        step1 r ⟨tf, "created", ca, ua⟩ ans clk := by
      intro r
      unfold step1
      rw [if_pos (show getStageIndex
          (TaskProgress.mk tf cs ca ua).currentStage ≤ getStageIndex "created"
          by show getStageIndex cs ≤ getStageIndex "created"
             rw [hidx, getStageIndex_created]; decide),
        if_pos (show getStageIndex
          (TaskProgress.mk tf "created" ca ua).currentStage ≤
            getStageIndex "created" from le_refl _)]
      rfl
    have hfin : ∀ out, finishResume ⟨tf, cs, ca, ua⟩ out =
        finishResume ⟨tf, "created", ca, ua⟩ out := by
      intro out
      unfold finishResume
      cases out with
      | ret r res => rfl
      | thrown r => rfl
      | cont r q a c =>
        dsimp only
        rw [if_neg (show ¬((TaskProgress.mk tf cs ca ua).currentStage =
            "completed") from hne),
          if_neg (show ¬((TaskProgress.mk tf "created" ca ua).currentStage =
            "completed") from fun hh =>
              (by decide : ("created" : String) ≠ "completed") hh)]
    simp only [resumeFromStage, hstep]
    exact hfin _
  · exact resumeFromStage_first_prompt f ⟨tf, cs, ca, ua⟩ ans clk
      (by show getStageIndex cs ≤ 0
          rw [hidx]; decide)

theorem resume_unknown_stage_witness :
    ("bogus" : String) ∉ STAGE_ORDER ∧
    (getStageIndex ("bogus" : String) = -1 ∧
      resumeFromStage [] ⟨"t", "bogus", 0, 0⟩ [none] [] =
        resumeFromStage [] ⟨"t", "created", 0, 0⟩ [none] [] ∧
      (resumeFromStage [] ⟨"t", "bogus", 0, 0⟩ [none] []).1.prompts.head? =
        some "Task Planning") :=
  ⟨by decide,
   resume_unknown_stage [] ⟨"t", "bogus", 0, 0⟩ [none] [] (by decide)⟩

theorem chain'_snoc_stageLe (l : List String) (s0 x : String)
    (hc : List.Chain' stageLe (s0 :: l)) (hx : stageLe (l.getLastD s0) x) :
    List.Chain' stageLe (s0 :: (l ++ [x])) := by
  induction l generalizing s0 with
  | nil =>
    simp only [List.nil_append]
    exact List.chain'_pair.mpr (by simpa using hx)
  | cons y l ih =>
    rw [List.cons_append]
    have h1 := (List.chain'_cons.mp hc).1
    have h2 := (List.chain'_cons.mp hc).2
    exact List.chain'_cons.mpr
      ⟨h1, ih y h2 (by rw [List.getLastD_cons] at hx; exact hx)⟩

theorem getLastD_snoc (l : List String) (d x : String) :
    (l ++ [x]).getLastD d = x := by
  induction l generalizing d with
  | nil => rfl
  | cons y l ih => rw [List.cons_append, List.getLastD_cons]; exact ih y

theorem andThen_OutOK (s0 : String) (s : StepOut)
    (k : Run → TaskProgress → List (Option String) → List Int → StepOut)
    (hs : OutOK s0 s)
    (hk : ∀ r p a c, WritesOK s0 p.currentStage r → OutOK s0 (k r p a c)) :
    OutOK s0 (s.andThen k) := by
  cases s with
  | ret r res => exact hs
  | thrown r => exact hs
  | cont r p a c => exact hk r p a c hs

theorem writtenStages_write (r : Run) (p : TaskProgress) :
    writtenStages (writeTaskProgressR r p) =
      writtenStages r ++ [p.currentStage] := by
  simp [writtenStages, writeTaskProgressR]

theorem writtenStages_createAndOpenFileR (r : Run) (n : String) :
    writtenStages (createAndOpenFileR r n) = writtenStages r := rfl

theorem writtenStages_copyFile (r r' : Run) (s d : String)
    (h : copyFile r s d = some r') : writtenStages r' = writtenStages r := by
  unfold writtenStages
  rw [copyFile_recordWrites _ _ _ _ h]

theorem showQuickPick_run_fields (r : Run) (t : String)
    (ans : List (Option String)) :
    (showQuickPick r t ans).1.recordWrites = r.recordWrites ∧
    (showQuickPick r t ans).1.files = r.files := by
  cases ans <;> exact ⟨rfl, rfl⟩

theorem showQuickPick_writtenStages (r : Run) (t : String)
    (ans : List (Option String)) :
    writtenStages (showQuickPick r t ans).1 = writtenStages r := by
  cases ans <;> rfl

theorem step1_OutOK (s0 : String) (r : Run) (p : TaskProgress)
    (ans : List (Option String)) (clk : List Int)
    (hw : WritesOK s0 p.currentStage r) : OutOK s0 (step1 r p ans clk) := by
  simp only [WritesOK, writtenStages] at hw
  unfold step1
  split
  · rename_i hg
    rw [getStageIndex_created] at hg
    split
    rename_i x r2 a2 ans2 heq
    have hr2 : r2.recordWrites = r.recordWrites := by
      have h2 := showQuickPick_run_recordWrites r "Task Planning" ans
      rw [heq] at h2
      exact h2
    split
    · simp only [OutOK, writtenStages]
      rw [hr2]
      exact hw.1
    · simp only [OutOK, WritesOK, writtenStages, writeTaskProgressR,
        createAndOpenFileR, createAndOpenFile, updateTaskProgressStage,
        List.map_append, List.map_cons, List.map_nil]
      rw [hr2]
      refine ⟨chain'_snoc_stageLe _ _ _ hw.1 ?_, getLastD_snoc _ _ _⟩
      rw [hw.2]
      show stageLe p.currentStage "plan"
      unfold stageLe
      rw [getStageIndex_plan]
      omega
  · exact hw

theorem step2_OutOK (s0 : String) (r : Run) (p : TaskProgress)
    (ans : List (Option String)) (clk : List Int)
    (hw : WritesOK s0 p.currentStage r) : OutOK s0 (step2 r p ans clk) := by
  simp only [WritesOK, writtenStages] at hw
  unfold step2
  split
  · rename_i hg
    rw [getStageIndex_plan] at hg
    split
    rename_i x r2 a2 ans2 heq
    have hr2 : r2.recordWrites = r.recordWrites := by
      have h2 := showQuickPick_run_recordWrites r "Plan Review" ans
      rw [heq] at h2
      exact h2
    split
    · split
      · simp only [OutOK, writtenStages]
        rw [hr2]
        exact hw.1
      · rename_i r3 hcopy
        simp only [OutOK, WritesOK, writtenStages, writeTaskProgressR,
        createAndOpenFileR, createAndOpenFile, updateTaskProgressStage,
        List.map_append, List.map_cons, List.map_nil]
        rw [copyFile_recordWrites _ r3 _ _ hcopy, hr2]
        refine chain'_snoc_stageLe _ _ _ hw.1 ?_
        rw [hw.2]
        show stageLe p.currentStage "completed"
        unfold stageLe
        rw [getStageIndex_completed]
        omega
    · simp only [OutOK, WritesOK, writtenStages, writeTaskProgressR,
        createAndOpenFileR, createAndOpenFile, updateTaskProgressStage,
        List.map_append, List.map_cons, List.map_nil]
      rw [hr2]
      refine ⟨chain'_snoc_stageLe _ _ _ hw.1 ?_, getLastD_snoc _ _ _⟩
      rw [hw.2]
      show stageLe p.currentStage "plan-review"
      unfold stageLe
      rw [getStageIndex_planReview]
      omega
  · exact hw

theorem step3_OutOK (s0 : String) (r : Run) (p : TaskProgress)
    (ans : List (Option String)) (clk : List Int)
    (hw : WritesOK s0 p.currentStage r) : OutOK s0 (step3 r p ans clk) := by
  simp only [WritesOK, writtenStages] at hw
  unfold step3
  split
  · rename_i hg
    rw [getStageIndex_planReview] at hg
    split
    rename_i x r2 a2 ans2 heq
    have hr2 : r2.recordWrites = r.recordWrites := by
      have h2 := showQuickPick_run_recordWrites r "Plan Update" ans
      rw [heq] at h2
      exact h2
    split
    · split
      · simp only [OutOK, writtenStages]
        rw [hr2]
        exact hw.1
      · rename_i r3 hcopy
        simp only [OutOK, WritesOK, writtenStages, writeTaskProgressR,
        createAndOpenFileR, createAndOpenFile, updateTaskProgressStage,
        List.map_append, List.map_cons, List.map_nil]
        rw [copyFile_recordWrites _ r3 _ _ hcopy, hr2]
        refine chain'_snoc_stageLe _ _ _ hw.1 ?_
        rw [hw.2]
        show stageLe p.currentStage "completed"
        unfold stageLe
        rw [getStageIndex_completed]
        omega
    · simp only [OutOK, WritesOK, writtenStages, writeTaskProgressR,
        createAndOpenFileR, createAndOpenFile, updateTaskProgressStage,
        List.map_append, List.map_cons, List.map_nil]
      rw [hr2]
      refine ⟨chain'_snoc_stageLe _ _ _ hw.1 ?_, getLastD_snoc _ _ _⟩
      rw [hw.2]
      show stageLe p.currentStage "plan-updated"
      unfold stageLe
      rw [getStageIndex_planUpdated]
      omega
  · exact hw

theorem step4_OutOK (s0 : String) (r : Run) (p : TaskProgress)
    (ans : List (Option String)) (clk : List Int)
    (hw : WritesOK s0 p.currentStage r) : OutOK s0 (step4 r p ans clk) := by
  simp only [WritesOK, writtenStages] at hw
  unfold step4
  split
  · rename_i hg
    rw [getStageIndex_planUpdated] at hg
    split
    rename_i x r2 a2 ans2 heq
    have hr2 : r2.recordWrites = r.recordWrites := by
      have h2 := showQuickPick_run_recordWrites r "Updated Plan Review" ans
      rw [heq] at h2
      exact h2
    split
    · split
      · simp only [OutOK, writtenStages]
        rw [hr2]
        exact hw.1
      · rename_i r3 hcopy
        simp only [OutOK, WritesOK, writtenStages, writeTaskProgressR,
        createAndOpenFileR, createAndOpenFile, updateTaskProgressStage,
        List.map_append, List.map_cons, List.map_nil]
        rw [copyFile_recordWrites _ r3 _ _ hcopy, hr2]
        refine chain'_snoc_stageLe _ _ _ hw.1 ?_
        rw [hw.2]
        show stageLe p.currentStage "completed"
        unfold stageLe
        rw [getStageIndex_completed]
        omega
    · simp only [OutOK, WritesOK, writtenStages, writeTaskProgressR,
        createAndOpenFileR, createAndOpenFile, updateTaskProgressStage,
        List.map_append, List.map_cons, List.map_nil]
      rw [hr2]
      refine ⟨chain'_snoc_stageLe _ _ _ hw.1 ?_, getLastD_snoc _ _ _⟩
      rw [hw.2]
      show stageLe p.currentStage "plan-updated-review"
      unfold stageLe
      rw [getStageIndex_planUpdatedReview]
      omega
  · exact hw

theorem step5_OutOK (s0 : String) (r : Run) (p : TaskProgress)
    (ans : List (Option String)) (clk : List Int)
    (hw : WritesOK s0 p.currentStage r) : OutOK s0 (step5 r p ans clk) := by
  simp only [WritesOK, writtenStages] at hw
  unfold step5
  split
  · rename_i hg
    rw [getStageIndex_planUpdatedReview] at hg
    split
    rename_i x r2 a2 ans2 heq
    have hr2 : r2.recordWrites = r.recordWrites := by
      have h2 := showQuickPick_run_recordWrites r "Final Plan" ans
      rw [heq] at h2
      exact h2
    split
    · simp only [OutOK, WritesOK, writtenStages, writeTaskProgressR,
        createAndOpenFileR, createAndOpenFile, updateTaskProgressStage,
        List.map_append, List.map_cons, List.map_nil]
      rw [hr2]
      refine ⟨chain'_snoc_stageLe _ _ _
          (chain'_snoc_stageLe _ _ _ hw.1 ?_) ?_, getLastD_snoc _ _ _⟩
      · rw [hw.2]
        show stageLe p.currentStage "plan-final"
        unfold stageLe
        rw [getStageIndex_planFinal]
        omega
      · rw [getLastD_snoc]
        show stageLe "plan-final" "completed"
        unfold stageLe
        rw [getStageIndex_planFinal, getStageIndex_completed]
        omega
    · split
      · simp only [OutOK, writtenStages]
        rw [hr2]
        exact hw.1
      · rename_i r3 hcopy
        simp only [OutOK, WritesOK, writtenStages, writeTaskProgressR,
        createAndOpenFileR, createAndOpenFile, updateTaskProgressStage,
        List.map_append, List.map_cons, List.map_nil]
        rw [copyFile_recordWrites _ r3 _ _ hcopy, hr2]
        refine ⟨chain'_snoc_stageLe _ _ _ hw.1 ?_, getLastD_snoc _ _ _⟩
        rw [hw.2]
        show stageLe p.currentStage "completed"
        unfold stageLe
        rw [getStageIndex_completed]
        omega
  · exact hw

theorem step6_OutOK (s0 : String) (r : Run) (p : TaskProgress)
    (ans : List (Option String)) (clk : List Int)
    (hw : WritesOK s0 p.currentStage r) : OutOK s0 (step6 r p ans clk) := by
  simp only [WritesOK, writtenStages] at hw
  unfold step6
  split
  · rename_i hg
    simp only [OutOK, WritesOK, writtenStages, writeTaskProgressR,
        createAndOpenFileR, createAndOpenFile, updateTaskProgressStage,
        List.map_append, List.map_cons, List.map_nil]
    refine ⟨chain'_snoc_stageLe _ _ _ hw.1 ?_, getLastD_snoc _ _ _⟩
    rw [hw.2, hg]
    show stageLe "plan-final" "completed"
    unfold stageLe
    rw [getStageIndex_planFinal, getStageIndex_completed]
    omega
  · exact hw

theorem finishResume_recordWrites (orig : TaskProgress) (out : StepOut) :
    (finishResume orig out).1.recordWrites = out.run.recordWrites := by
  unfold finishResume
  cases out with
  | ret r res => rfl
  | thrown r => rfl
  | cont r p a c =>
    dsimp only
    split <;> rfl

theorem finishResume_writtenStages (orig : TaskProgress) (out : StepOut) :
    writtenStages (finishResume orig out).1 = writtenStages out.run := by
  unfold writtenStages
  rw [finishResume_recordWrites]

theorem OutOK_chain (s0 : String) (o : StepOut) (h : OutOK s0 o) :
    List.Chain' stageLe (s0 :: writtenStages o.run) := by
  cases o with
  | ret r res => exact h
  | thrown r => exact h
  | cont r p a c => exact h.1

/-- C4: the workflow is forward-only.  Across any single engine run the
sequence formed by the loaded record's stage followed by the stages of all
successive record writes is non-decreasing in the canonical order (as
measured by the program's own `getStageIndex`); since each resume starts
from the last persisted record, the persisted `currentStage` never
decreases across writes.  `startNewTask` performs no record write at all,
so it cannot decrease the stage either. -/
theorem persisted_stage_monotone (f : List (String × String))
    (p : TaskProgress) (ans : List (Option String)) (clk : List Int) :
    List.Chain' stageLe
      (p.currentStage :: writtenStages (resumeFromStage f p ans clk).1) ∧
    (∀ mp wo re dc ds f0 a0,
      (startNewTask mp wo re dc ds f0 a0).1.recordWrites = []) := by
  refine ⟨?_, startNewTask_recordWrites_nil⟩
  have h0 : WritesOK p.currentStage p.currentStage (Run.mk f [] [] []) :=
    ⟨by simp [writtenStages], by simp [writtenStages]⟩
  have hout := andThen_OutOK p.currentStage _ step6
    (andThen_OutOK p.currentStage _ step5
      (andThen_OutOK p.currentStage _ step4
        (andThen_OutOK p.currentStage _ step3
          (andThen_OutOK p.currentStage _ step2
            (step1_OutOK p.currentStage (Run.mk f [] [] []) p ans clk h0)
            (step2_OutOK p.currentStage))
          (step3_OutOK p.currentStage))
        (step4_OutOK p.currentStage))
      (step5_OutOK p.currentStage))
    (step6_OutOK p.currentStage)
  simp only [resumeFromStage]
  rw [finishResume_writtenStages]
  exact OutOK_chain _ _ hout

theorem truthy_of_wellFormed (j : Json) (h : isWellFormedProgress j = true) :
    j.truthy = true := by
  cases j <;> simp_all [isWellFormedProgress, Json.getField, Json.truthy]

theorem findIncompleteTasks_some_eq (es : List DirEntry) :
    findIncompleteTasks (some es) =
      (es.filterMap fun e =>
        if e.type = FileType.directory then
          match readTaskProgress e.record with
          | some progress =>
              if progress.truthy && !(stageIsCompleted progress) then
                some { folderName := e.name, progress := progress }
              else none
          | none => none
        else none).mergeSort
        (fun a b => updatedAtKey b.progress ≤ updatedAtKey a.progress) := rfl

theorem codeFilter_eq_spec (es : List DirEntry)
    (hwf : ∀ e ∈ es, ∀ j, readTaskProgress e.record = some j →
      isWellFormedProgress j = true) :
    (es.filterMap fun e =>
      if e.type = FileType.directory then
        match readTaskProgress e.record with
        | some progress =>
            if progress.truthy && !(stageIsCompleted progress) then
              some { folderName := e.name, progress := progress }
            else none
        | none => none
      else none) = incompleteBySpec es := by
  induction es with
  | nil => rfl
  | cons e es ih =>
    have hwfe := hwf e (List.mem_cons_self _ _)
    have hrest : ∀ e' ∈ es, ∀ j, readTaskProgress e'.record = some j →
        isWellFormedProgress j = true :=
      fun e' he' => hwf e' (List.mem_cons_of_mem _ he')
    unfold incompleteBySpec
    rw [List.filterMap_cons, List.filterMap_cons]
    by_cases hd : e.type = FileType.directory
    · rw [if_pos hd, if_pos hd]
      cases hrec : readTaskProgress e.record with
      | none =>
        simpa [incompleteBySpec] using ih hrest
      | some j =>
        have ht := truthy_of_wellFormed j (hwfe j hrec)
        dsimp only
        rw [ht]
        cases hc : stageIsCompleted j with
        | true =>
          simpa [incompleteBySpec] using ih hrest
        | false =>
          simp only [Bool.true_and, Bool.not_false, if_true]
          rw [ih hrest]
          rfl
    · rw [if_neg hd, if_neg hd]
      exact ih hrest

/-- C6: over a root whose record files, when they parse at all, contain
well-formed `ProgressRecord` objects, `findIncompleteTasks` returns exactly
(as a permutation of) the immediate subdirectories whose record loads
successfully and is not at `completed`, ordered by `updatedAt` descending;
and when the enumeration of the root fails (missing root included) it
returns the empty list instead of failing. -/
theorem findIncompleteTasks_spec (es : List DirEntry)
    (hwf : ∀ e ∈ es, ∀ j, readTaskProgress e.record = some j →
      isWellFormedProgress j = true) :
    findIncompleteTasks none = [] ∧
    (findIncompleteTasks (some es)).Perm (incompleteBySpec es) ∧
    List.Pairwise
      (fun a b => updatedAtKey b.progress ≤ updatedAtKey a.progress)
      (findIncompleteTasks (some es)) := by
  refine ⟨rfl, ?_, ?_⟩
  · rw [findIncompleteTasks_some_eq, codeFilter_eq_spec es hwf]
    exact List.mergeSort_perm _ _
  · rw [findIncompleteTasks_some_eq]
    have hsorted := @List.sorted_mergeSort IncompleteTask
      (fun a b => decide (updatedAtKey b.progress ≤ updatedAtKey a.progress))
      (fun a b c h1 h2 => by
        simp only [decide_eq_true_eq] at h1 h2 ⊢
        omega)
      (fun a b => by
        simp only [Bool.or_eq_true, decide_eq_true_eq]
        omega)
      (es.filterMap fun e =>
        if e.type = FileType.directory then
          match readTaskProgress e.record with
          | some progress =>
              if progress.truthy && !(stageIsCompleted progress) then
                some { folderName := e.name, progress := progress }
              else none
          | none => none
        else none)
    exact hsorted.imp (fun hab => by simpa using hab)

theorem findIncompleteTasks_spec_witness :
    (∀ e ∈ [DirEntry.mk "a" FileType.directory (ReadResult.parsed
        (Json.obj [("taskFolder", Json.str "a"),
          ("currentStage", Json.str "plan"),
          ("createdAt", Json.num 0), ("updatedAt", Json.num 8)])),
      DirEntry.mk "b" FileType.directory (ReadResult.parsed
        (Json.obj [("taskFolder", Json.str "b"),
          ("currentStage", Json.str "plan-review"),
          ("createdAt", Json.num 0), ("updatedAt", Json.num 10)])),
      DirEntry.mk "c" FileType.directory (ReadResult.parsed
        (Json.obj [("taskFolder", Json.str "c"),
          ("currentStage", Json.str "completed"),
          ("createdAt", Json.num 0), ("updatedAt", Json.num 9)]))],
      ∀ j, readTaskProgress e.record = some j →
        isWellFormedProgress j = true) ∧
    (findIncompleteTasks none = [] ∧
      (findIncompleteTasks (some [DirEntry.mk "a" FileType.directory
        (ReadResult.parsed (Json.obj [("taskFolder", Json.str "a"),
          ("currentStage", Json.str "plan"),
          ("createdAt", Json.num 0), ("updatedAt", Json.num 8)])),
      DirEntry.mk "b" FileType.directory (ReadResult.parsed
        (Json.obj [("taskFolder", Json.str "b"),
          ("currentStage", Json.str "plan-review"),
          ("createdAt", Json.num 0), ("updatedAt", Json.num 10)])),
      DirEntry.mk "c" FileType.directory (ReadResult.parsed
        (Json.obj [("taskFolder", Json.str "c"),
          ("currentStage", Json.str "completed"),
          ("createdAt", Json.num 0), ("updatedAt", Json.num 9)]))])).Perm
        (incompleteBySpec [DirEntry.mk "a" FileType.directory
        (ReadResult.parsed (Json.obj [("taskFolder", Json.str "a"),
          ("currentStage", Json.str "plan"),
          ("createdAt", Json.num 0), ("updatedAt", Json.num 8)])),
      DirEntry.mk "b" FileType.directory (ReadResult.parsed
        (Json.obj [("taskFolder", Json.str "b"),
          ("currentStage", Json.str "plan-review"),
          ("createdAt", Json.num 0), ("updatedAt", Json.num 10)])),
      DirEntry.mk "c" FileType.directory (ReadResult.parsed
        (Json.obj [("taskFolder", Json.str "c"),
          ("currentStage", Json.str "completed"),
          ("createdAt", Json.num 0), ("updatedAt", Json.num 9)]))]) ∧
      List.Pairwise
        (fun a b => updatedAtKey b.progress ≤ updatedAtKey a.progress)
        (findIncompleteTasks (some [DirEntry.mk "a" FileType.directory
        (ReadResult.parsed (Json.obj [("taskFolder", Json.str "a"),
          ("currentStage", Json.str "plan"),
          ("createdAt", Json.num 0), ("updatedAt", Json.num 8)])),
      DirEntry.mk "b" FileType.directory (ReadResult.parsed
        (Json.obj [("taskFolder", Json.str "b"),
          ("currentStage", Json.str "plan-review"),
          ("createdAt", Json.num 0), ("updatedAt", Json.num 10)])),
      DirEntry.mk "c" FileType.directory (ReadResult.parsed
        (Json.obj [("taskFolder", Json.str "c"),
          ("currentStage", Json.str "completed"),
          ("createdAt", Json.num 0), ("updatedAt", Json.num 9)]))]))) := by
  have hwf : ∀ e ∈ [DirEntry.mk "a" FileType.directory (ReadResult.parsed
        (Json.obj [("taskFolder", Json.str "a"),
          ("currentStage", Json.str "plan"),
          ("createdAt", Json.num 0), ("updatedAt", Json.num 8)])),
      DirEntry.mk "b" FileType.directory (ReadResult.parsed
        (Json.obj [("taskFolder", Json.str "b"),
          ("currentStage", Json.str "plan-review"),
          ("createdAt", Json.num 0), ("updatedAt", Json.num 10)])),
      DirEntry.mk "c" FileType.directory (ReadResult.parsed
        (Json.obj [("taskFolder", Json.str "c"),
          ("currentStage", Json.str "completed"),
          ("createdAt", Json.num 0), ("updatedAt", Json.num 9)]))],
      ∀ j, readTaskProgress e.record = some j →
        isWellFormedProgress j = true := by
    intro e he j hj
    simp only [List.mem_cons, List.not_mem_nil, or_false] at he
    rcases he with rfl | rfl | rfl <;>
      (simp only [readTaskProgress] at hj
       cases hj
       decide)
  exact ⟨hwf, findIncompleteTasks_spec _ hwf⟩
